import Mathlib

/-!
Verification of the replay-analysis engine in
`sentry-replays-meticulous/replay_analyzer.py`.
The development is a shallow embedding of the Python module.
`JVal` models JSON-like dynamic Python values (raw replay records are
loosely structured dictionaries).  The Normalizer
(`ReplayAnalyzer.analyze_replay` with `_extract_url`, `_extract_actions`,
`_extract_network_requests`, `_extract_errors`) is embedded over `JVal`
records, with Python's dynamic failure modes (TypeError on subscripting
or iterating a non-sequence, AttributeError on `.get` of a non-dict) made
explicit through `Except`.  The dataclasses `UserAction`,
`NetworkRequest`, `ReplaySession` are embedded as structures;
`ReplaySession.to_test_script`, `ReplayAnalyzer.analyze_coverage` and
`ReplayAnalyzer.select_sessions_for_testing` are embedded as pure
functions over them.  Python's stable `list.sort(key=..., reverse=True)`
is embedded as a stable insertion sort by the same key with the reversed
comparison, which computes the same list.
-/

/-! ## Definitions: the embedded data model and operations -/

/-- A JSON-like dynamic value, modelling the loosely typed Python values
that appear inside a raw replay record.  Numbers are integers (the fields
the analyzer reads are millisecond counts and ids). -/
inductive JVal where
  | null : JVal
  | bool (b : Bool) : JVal
  | num (n : Int) : JVal
  | str (s : String) : JVal
  | arr (elems : List JVal) : JVal
  | obj (fields : List (String × JVal)) : JVal
deriving Repr

mutual

/-- Decidable equality for `JVal` (hand-rolled: the inductive is nested). -/
def JVal.decEq : (a b : JVal) → Decidable (a = b)
  | .null, .null => .isTrue rfl
  | .bool a, .bool b =>
    match (inferInstance : Decidable (a = b)) with
    | .isTrue h => .isTrue (by rw [h])
    | .isFalse h => .isFalse (fun hc => h (by cases hc; rfl))
  | .num a, .num b =>
    match (inferInstance : Decidable (a = b)) with
    | .isTrue h => .isTrue (by rw [h])
    | .isFalse h => .isFalse (fun hc => h (by cases hc; rfl))
  | .str a, .str b =>
    match (inferInstance : Decidable (a = b)) with
    | .isTrue h => .isTrue (by rw [h])
    | .isFalse h => .isFalse (fun hc => h (by cases hc; rfl))
  | .arr a, .arr b =>
    match JVal.decEqList a b with
    | .isTrue h => .isTrue (by rw [h])
    | .isFalse h => .isFalse (fun hc => h (by cases hc; rfl))
  | .obj a, .obj b =>
    match JVal.decEqFields a b with
    | .isTrue h => .isTrue (by rw [h])
    | .isFalse h => .isFalse (fun hc => h (by cases hc; rfl))
  | .null, .bool _ => .isFalse (fun h => JVal.noConfusion h)
  | .null, .num _ => .isFalse (fun h => JVal.noConfusion h)
  | .null, .str _ => .isFalse (fun h => JVal.noConfusion h)
  | .null, .arr _ => .isFalse (fun h => JVal.noConfusion h)
  | .null, .obj _ => .isFalse (fun h => JVal.noConfusion h)
  | .bool _, .null => .isFalse (fun h => JVal.noConfusion h)
  | .bool _, .num _ => .isFalse (fun h => JVal.noConfusion h)
  | .bool _, .str _ => .isFalse (fun h => JVal.noConfusion h)
  | .bool _, .arr _ => .isFalse (fun h => JVal.noConfusion h)
  | .bool _, .obj _ => .isFalse (fun h => JVal.noConfusion h)
  | .num _, .null => .isFalse (fun h => JVal.noConfusion h)
  | .num _, .bool _ => .isFalse (fun h => JVal.noConfusion h)
  | .num _, .str _ => .isFalse (fun h => JVal.noConfusion h)
  | .num _, .arr _ => .isFalse (fun h => JVal.noConfusion h)
  | .num _, .obj _ => .isFalse (fun h => JVal.noConfusion h)
  | .str _, .null => .isFalse (fun h => JVal.noConfusion h)
  | .str _, .bool _ => .isFalse (fun h => JVal.noConfusion h)
  | .str _, .num _ => .isFalse (fun h => JVal.noConfusion h)
  | .str _, .arr _ => .isFalse (fun h => JVal.noConfusion h)
  | .str _, .obj _ => .isFalse (fun h => JVal.noConfusion h)
  | .arr _, .null => .isFalse (fun h => JVal.noConfusion h)
  | .arr _, .bool _ => .isFalse (fun h => JVal.noConfusion h)
  | .arr _, .num _ => .isFalse (fun h => JVal.noConfusion h)
  | .arr _, .str _ => .isFalse (fun h => JVal.noConfusion h)
  | .arr _, .obj _ => .isFalse (fun h => JVal.noConfusion h)
  | .obj _, .null => .isFalse (fun h => JVal.noConfusion h)
  | .obj _, .bool _ => .isFalse (fun h => JVal.noConfusion h)
  | .obj _, .num _ => .isFalse (fun h => JVal.noConfusion h)
  | .obj _, .str _ => .isFalse (fun h => JVal.noConfusion h)
  | .obj _, .arr _ => .isFalse (fun h => JVal.noConfusion h)

/-- Decidable equality for lists of `JVal`. -/
def JVal.decEqList : (a b : List JVal) → Decidable (a = b)
  | [], [] => .isTrue rfl
  | [], _ :: _ => .isFalse (fun h => List.noConfusion h)
  | _ :: _, [] => .isFalse (fun h => List.noConfusion h)
  | a :: as, b :: bs =>
    match JVal.decEq a b, JVal.decEqList as bs with
    | .isTrue h1, .isTrue h2 => .isTrue (by rw [h1, h2])
    | .isFalse h1, _ => .isFalse (fun hc => h1 (by cases hc; rfl))
    | _, .isFalse h2 => .isFalse (fun hc => h2 (by cases hc; rfl))

/-- Decidable equality for string-keyed `JVal` field lists. -/
def JVal.decEqFields : (a b : List (String × JVal)) → Decidable (a = b)
  | [], [] => .isTrue rfl
  | [], _ :: _ => .isFalse (fun h => List.noConfusion h)
  | _ :: _, [] => .isFalse (fun h => List.noConfusion h)
  | (k1, v1) :: as, (k2, v2) :: bs =>
    match (inferInstance : Decidable (k1 = k2)), JVal.decEq v1 v2, JVal.decEqFields as bs with
    | .isTrue h1, .isTrue h2, .isTrue h3 => .isTrue (by rw [h1, h2, h3])
    | .isFalse h1, _, _ => .isFalse (fun hc => h1 (by cases hc; rfl))
    | _, .isFalse h2, _ => .isFalse (fun hc => h2 (by cases hc; rfl))
    | _, _, .isFalse h3 => .isFalse (fun hc => h3 (by cases hc; rfl))

end

instance : DecidableEq JVal := JVal.decEq

/-- Python truthiness of a `JVal`: `None`, `False`, `0`, `""`, `[]`, `{}`
are falsy, everything else truthy. -/
def JVal.truthy : JVal → Bool
  | .null => false
  | .bool b => b
  | .num n => n != 0
  | .str s => s != ""
  | .arr l => !l.isEmpty
  | .obj l => !l.isEmpty

/-- The runtime errors Python can raise in the code paths we embed. -/
inductive PyErr where
  | typeError : PyErr
  | attributeError : PyErr
  | keyError : PyErr
  | indexError : PyErr
deriving DecidableEq, Repr

/-- A raw replay record: a Python dict with string keys (`replay_data`). -/
abbrev RawRecord := List (String × JVal)

/-- Dictionary lookup: `replay_data[k]` / presence test `k in replay_data`.
Returns the first binding of the key when present. -/
def jget (r : RawRecord) (k : String) : Option JVal :=
  (r.find? (fun p => p.1 == k)).map (fun p => p.2)

/-- Dictionary get with default: `replay_data.get(k, d)`. -/
def jgetD (r : RawRecord) (k : String) (d : JVal) : JVal :=
  (jget r k).getD d

/-- Python `v[0]`, as used on a truthy `replay_data['urls']`: first element
of a list, first character of a string; raises on dicts (string keys only,
so integer subscripting is a KeyError), numbers, booleans and None. -/
def index0 : JVal → Except PyErr JVal
  | .arr [] => .error .indexError
  | .arr (x :: _) => .ok x
  | .str s => if s = "" then .error .indexError else .ok (.str (s.take 1))
  | .obj _ => .error .keyError
  | .null => .error .typeError
  | .bool _ => .error .typeError
  | .num _ => .error .typeError

/-- Python iteration `for x in v`: elements of a list, characters of a
string, keys of a dict; raises TypeError otherwise. -/
def iterElems : JVal → Except PyErr (List JVal)
  | .arr l => .ok l
  | .str s => .ok (s.toList.map (fun c => .str c.toString))
  | .obj fields => .ok (fields.map (fun p => JVal.str p.1))
  | .null => .error .typeError
  | .bool _ => .error .typeError
  | .num _ => .error .typeError

/-- Python `tag.get(k, d)`: requires `tag` to be a dict, else
AttributeError. -/
def dynGet (v : JVal) (k : String) (d : JVal) : Except PyErr JVal :=
  match v with
  | .obj fields => .ok (jgetD fields k d)
  | _ => .error .attributeError

/-- The tag-scanning loop inside `_extract_url`:
`for tag in tags: if tag.get('key') == 'url': return tag.get('value', '')`
followed by the module's fallback `return 'https://example.com'`.
Python's `==` against the string `'url'` holds exactly for the equal
string. -/
def urlTagLoop : List JVal → Except PyErr JVal
  | [] => .ok (.str "https://example.com")
  | tag :: rest => do
    let k ← dynGet tag "key" .null
    if k = .str "url" then
      dynGet tag "value" (.str "")
    else
      urlTagLoop rest

/-- The part of `_extract_url` after the `urls` check: a scalar `url`
field, then the `tags` scan, then the fixed fallback. -/
def extract_url_rest (replay_data : RawRecord) : Except PyErr JVal :=
  match jget replay_data "url" with
  | some u => .ok u
  | none =>
    match jget replay_data "tags" with
    | some t => do
      let tags ← iterElems t
      urlTagLoop tags
    | none => .ok (.str "https://example.com")

/-- Embedding of `ReplayAnalyzer._extract_url`: check `urls` (first element when present
and truthy), then a scalar `url` field, then the `tags` scan, then the
fixed fallback. -/
def extract_url (replay_data : RawRecord) : Except PyErr JVal :=
  match jget replay_data "urls" with
  | some v =>
    if v.truthy then index0 v else extract_url_rest replay_data
  | none => extract_url_rest replay_data

/-- Embedding of `ReplayAnalyzer._extract_actions`: a placeholder returning the empty
list for every input. -/
def extract_actions (_replay_data : RawRecord) : List JVal := []

/-- Embedding of `ReplayAnalyzer._extract_network_requests`: a placeholder returning the
empty list for every input. -/
def extract_network_requests (_replay_data : RawRecord) : List JVal := []

/-- Embedding of `ReplayAnalyzer._extract_errors`: pass `errors` through verbatim when
the key is present; else synthesize `{'id': eid}` records from
`error_ids`; else the empty list. -/
def extract_errors (replay_data : RawRecord) : Except PyErr JVal :=
  match jget replay_data "errors" with
  | some e => .ok e
  | none =>
    match jget replay_data "error_ids" with
    | some ids => do
      let l ← iterElems ids
      .ok (.arr (l.map (fun eid => JVal.obj [("id", eid)])))
    | none => .ok (.arr [])

/-- The metadata dictionary built by `analyze_replay`, with the defaults
of each `replay_data.get(...)` call. -/
structure DynMetadata where
  user : JVal
  browser : JVal
  os : JVal
  device : JVal
  started_at : JVal
  finished_at : JVal
  error_count : JVal
  project_id : JVal
deriving DecidableEq, Repr

/-- The `ReplaySession` value built by `analyze_replay` from a dynamic raw
record: scalar fields are passed through unconverted, exactly as Python's
dataclass constructor stores them. -/
structure DynReplaySession where
  replay_id : JVal
  duration : JVal
  url : JVal
  actions : List JVal
  network_requests : List JVal
  errors : JVal
  metadata : DynMetadata
deriving DecidableEq, Repr

/-- Embedding of `ReplayAnalyzer.analyze_replay`: normalize one raw replay record into a
session record.  The `Except` layer carries the Python runtime errors that
`_extract_url`/`_extract_errors` can raise on wrong-typed fields. -/
def analyze_replay (replay_data : RawRecord) : Except PyErr DynReplaySession := do
  let replay_id := jgetD replay_data "id" (.str "unknown")
  let duration := jgetD replay_data "duration" (.num 0)
  let url ← extract_url replay_data
  let actions := extract_actions replay_data
  let network_requests := extract_network_requests replay_data
  let errors ← extract_errors replay_data
  let metadata : DynMetadata := {
    user := jgetD replay_data "user" (.obj [])
    browser := jgetD replay_data "browser" (.obj [])
    os := jgetD replay_data "os" (.obj [])
    device := jgetD replay_data "device" (.obj [])
    started_at := jgetD replay_data "started_at" .null
    finished_at := jgetD replay_data "finished_at" .null
    error_count := jgetD replay_data "error_count" (.num 0)
    project_id := jgetD replay_data "project_id" .null }
  .ok {
    replay_id := replay_id
    duration := duration
    url := url
    actions := actions
    network_requests := network_requests
    errors := errors
    metadata := metadata }

/-- The `url` field of a successfully normalized session, `none` when
normalization raised. -/
def urlOf (e : Except PyErr DynReplaySession) : Option JVal :=
  match e with
  | .ok s => some s.url
  | .error _ => none

/-- Dataclass `UserAction`: one interaction point in a session. -/
structure UserAction where
  timestamp : Int
  action_type : String
  selector : Option String
  value : Option String
  target : Option String
  coordinates : Option (Int × Int)
deriving DecidableEq, Repr

/-- Dataclass `NetworkRequest`: a network request during replay. -/
structure NetworkRequest where
  timestamp : Int
  method : String
  url : String
  status_code : Option Int
  response_body : Option String
  request_body : Option String
deriving DecidableEq, Repr

/-- The metadata mapping built by `analyze_replay` for a session: the keys
it always carries.  `browser` is itself a mapping (the shape documented for
the data model and the shape `analyze_coverage` reads via
`metadata.get('browser', {}).get('name')`). -/
structure SessionMetadata where
  user : JVal
  browser : List (String × JVal)
  os : JVal
  device : JVal
  started_at : JVal
  finished_at : JVal
  error_count : JVal
  project_id : JVal
deriving DecidableEq, Repr

/-- Dataclass `ReplaySession`: the analyzed replay session dataclass.  Error records
are opaque mappings. -/
structure ReplaySession where
  replay_id : String
  duration : Int
  url : String
  actions : List UserAction
  network_requests : List NetworkRequest
  errors : List (List (String × JVal))
  metadata : SessionMetadata
deriving DecidableEq, Repr

/-- Python truthiness of an `Optional[str]`: `None` and `""` are falsy. -/
def optStrTruthy : Option String → Bool
  | none => false
  | some s => s != ""

/-- The fixed per-action delay line of `to_test_script`. -/
def waitLine : String := "  await page.waitForTimeout(100);"

/-- The shape of a click statement: `await page.click('<sel>');`. -/
def clickLine (sel : String) : String :=
  "  await page.click(\x27" ++ sel ++ "\x27);"

/-- The shape of a fill statement: `await page.fill('<sel>', '<val>');`. -/
def fillLine (sel v : String) : String :=
  "  await page.fill(\x27" ++ sel ++ "\x27, \x27" ++ v ++ "\x27);"

/-- The shape of a goto statement: `await page.goto('<url>');`. -/
def gotoLine (target : String) : String :=
  "  await page.goto(\x27" ++ target ++ "\x27);"

/-- The statement (if any) emitted for one action by the loop body of
`to_test_script`: a click for `click` actions with a truthy selector, a
fill for `input` actions with truthy selector and value, a goto for
`navigation` actions with a truthy target, nothing otherwise. -/
def actionStmt (action : UserAction) : Option String :=
  if action.action_type == "click" && optStrTruthy action.selector then
    some (clickLine (action.selector.getD ""))
  else if action.action_type == "input" && optStrTruthy action.selector
      && optStrTruthy action.value then
    some (fillLine (action.selector.getD "") (action.value.getD ""))
  else if action.action_type == "navigation" && optStrTruthy action.target then
    some (gotoLine (action.target.getD ""))
  else
    none

/-- All lines contributed by one action: the optional statement, then the
fixed 100ms wait line, then a blank line. -/
def actionLines (action : UserAction) : List String :=
  (actionStmt action).toList ++ [waitLine, ""]

/-- The list of lines of the generated Playwright script, before they are
joined with newlines. -/
def scriptLines (s : ReplaySession) : List String :=
  ["import \x7b test, expect \x7d from \x27@playwright/test\x27;",
   "",
   "test(\x27replay-" ++ s.replay_id.take 8 ++ "\x27, async (\x7b page \x7d) => \x7b",
   "  // Original session duration: " ++ toString s.duration ++ "ms",
   "  // URL: " ++ s.url,
   "",
   gotoLine s.url,
   ""]
  ++ s.actions.flatMap actionLines
  ++ ["  // Take final screenshot for comparison",
      "  await page.screenshot(\x7b path: \x27screenshots/replay-"
        ++ s.replay_id.take 8 ++ ".png\x27 \x7d);",
      "\x7d);"]

/-- Embedding of `ReplaySession.to_test_script`: generate a Playwright test script. -/
def ReplaySession.to_test_script (s : ReplaySession) : String :=
  String.intercalate "\n" (scriptLines s)

/-- The coverage statistics returned by `analyze_coverage`.  The two
distributions are modelled as count functions (`dict(Counter(...))` in the
source): the count of each key. -/
structure CoverageReport where
  total_sessions : Nat
  unique_urls : Nat
  unique_selectors : Nat
  url_distribution : String → Nat
  browser_distribution : Option JVal → Nat
  total_actions : Nat
  total_errors : Nat

/-- The truthy selectors of one session's actions, in order
(`if action.selector: all_selectors.append(action.selector)`). -/
def sessionSelectors (s : ReplaySession) : List String :=
  s.actions.filterMap (fun a =>
    match a.selector with
    | some v => if v != "" then some v else none
    | none => none)

/-- Embedding of `ReplayAnalyzer.analyze_coverage`, as a function of the session
collection it reads. -/
def analyze_coverage (sessions : List ReplaySession) : CoverageReport :=
  let all_urls := sessions.map (fun s => s.url)
  let all_browsers := sessions.map (fun s => jget s.metadata.browser "name")
  let all_selectors := sessions.flatMap sessionSelectors
  { total_sessions := sessions.length
    unique_urls := all_urls.dedup.length
    unique_selectors := all_selectors.dedup.length
    url_distribution := fun u => all_urls.count u
    browser_distribution := fun b => all_browsers.count b
    total_actions := (sessions.map (fun s => s.actions.length)).sum
    total_errors := (sessions.map (fun s => s.errors.length)).sum }

/-- The sort key of the `prioritize_errors` branch:
`key=lambda s: (len(s.errors), s.duration)`. -/
def errKey (s : ReplaySession) : Nat × Int :=
  (s.errors.length, s.duration)

/-- Lexicographic `x ≥ y` on (error count, duration) pairs. -/
def pairGe (x y : Nat × Int) : Prop :=
  y.1 < x.1 ∨ (y.1 = x.1 ∧ y.2 ≤ x.2)

instance : DecidablePred (fun p : (Nat × Int) × Nat × Int => pairGe p.1 p.2) :=
  fun _ => by unfold pairGe; infer_instance

/-- Sorting relation of the `prioritize_errors` branch: `s` may precede
`t` iff `s`'s key is lexicographically ≥ `t`'s (Python's stable
`sort(key=..., reverse=True)` orders by descending key, ties staying in
input order). -/
def errGe (s t : ReplaySession) : Prop := pairGe (errKey s) (errKey t)

/-- Sorting relation of the other branch: descending by duration. -/
def durGe (s t : ReplaySession) : Prop := t.duration ≤ s.duration

instance : DecidableRel errGe := fun s t => by unfold errGe pairGe; infer_instance

instance : DecidableRel durGe := fun s t => by unfold durGe; infer_instance

instance : IsTotal ReplaySession errGe where
  total s t := by
    unfold errGe pairGe
    rcases Nat.lt_trichotomy (errKey t).1 (errKey s).1 with h | h | h
    · exact Or.inl (Or.inl h)
    · rcases Int.le_total (errKey t).2 (errKey s).2 with h2 | h2
      · exact Or.inl (Or.inr ⟨h, h2⟩)
      · exact Or.inr (Or.inr ⟨h.symm, h2⟩)
    · exact Or.inr (Or.inl h)

instance : IsTrans ReplaySession errGe where
  trans s t u hst htu := by
    unfold errGe pairGe at *
    rcases hst with h1 | ⟨h1, h1d⟩
    · rcases htu with h2 | ⟨h2, _⟩
      · exact Or.inl (h2.trans h1)
      · exact Or.inl (h2 ▸ h1)
    · rcases htu with h2 | ⟨h2, h2d⟩
      · exact Or.inl (h1 ▸ h2)
      · exact Or.inr ⟨h2.trans h1, h2d.trans h1d⟩

instance : IsTotal ReplaySession durGe where
  total s t := (Int.le_total t.duration s.duration).imp id id

instance : IsTrans ReplaySession durGe where
  trans _ _ _ hst htu := htu.trans hst

/-- Embedding of `ReplayAnalyzer.select_sessions_for_testing`, as a function of the
session collection it reads.  Python's `list.sort(key=..., reverse=True)`
is a stable descending sort by the key, embedded as a stable insertion
sort along the matching total preorder. -/
def select_sessions_for_testing (sessions : List ReplaySession)
    (max_sessions : Nat) (prioritize_errors : Bool) (min_duration : Int) :
    List ReplaySession :=
  let candidates := sessions.filter (fun s => decide (min_duration ≤ s.duration))
  let sorted :=
    if prioritize_errors then candidates.insertionSort errGe
    else candidates.insertionSort durGe
  sorted.take max_sessions

/-- The analyzer object: its only state is the accumulated session
collection `self.sessions`. -/
structure ReplayAnalyzer where
  sessions : List ReplaySession
deriving DecidableEq, Repr

/-- The `select_sessions_for_testing` method in state-passing form: the
body reads `self.sessions`, builds a fresh filtered list, sorts that fresh
list in place and returns a slice of it; `self.sessions` is never
assigned, so the post-state is the pre-state. -/
def ReplayAnalyzer.select_st (a : ReplayAnalyzer) (max_sessions : Nat)
    (prioritize_errors : Bool) (min_duration : Int) :
    List ReplaySession × ReplayAnalyzer :=
  (select_sessions_for_testing a.sessions max_sessions prioritize_errors
    min_duration, a)

/-- Test whether `v` is a list value. -/
def JVal.isArr : JVal → Bool
  | .arr _ => true
  | _ => false

/-- Test whether `v` is a mapping value. -/
def JVal.isObj : JVal → Bool
  | .obj _ => true
  | _ => false

/-- Test whether `v` is a list of mappings. -/
def JVal.isObjArr : JVal → Bool
  | .arr l => l.all JVal.isObj
  | _ => false

/-- The documented shapes of the three fields the Normalizer traverses:
`urls` a list, `tags` a list of mappings, `error_ids` a list — each only
when the key is present. -/
def wellShaped (r : RawRecord) : Bool :=
  (match jget r "urls" with
   | none => true
   | some v => v.isArr) &&
  (match jget r "tags" with
   | none => true
   | some v => v.isObjArr) &&
  (match jget r "error_ids" with
   | none => true
   | some v => v.isArr)

/-- The claim-side key test: a tags entry (a mapping) whose `key` equals
`"url"`. -/
def tagKeyIsUrl (t : JVal) : Bool :=
  match t with
  | .obj fields => decide (jgetD fields "key" .null = .str "url")
  | _ => false

/-- The claim-side value of a tags entry, defaulting to the empty
string. -/
def tagValue : JVal → JVal
  | .obj fields => jgetD fields "value" (.str "")
  | _ => .str ""

/-- The session produced from an empty raw record. -/
def emptyNormalized : DynReplaySession :=
  { replay_id := .str "unknown"
    duration := .num 0
    url := .str "https://example.com"
    actions := []
    network_requests := []
    errors := .arr []
    metadata := {
      user := .obj []
      browser := .obj []
      os := .obj []
      device := .obj []
      started_at := .null
      finished_at := .null
      error_count := .num 0
      project_id := .null } }

/-- The metadata record used by the concrete example sessions. -/
def emptyMeta : SessionMetadata :=
  ⟨.obj [], [], .obj [], .obj [], .null, .null, .num 0, .null⟩

/-- The claim's example session: its sole action is a click with a null
selector. -/
def nullClickSession : ReplaySession :=
  ⟨"r1", 0, "https://example.com",
   [⟨0, "click", none, none, none, none⟩], [], [], emptyMeta⟩

/-- The script lines of the example session, spelled out. -/
def nullClickScriptLines : List String :=
  ["import \x7b test, expect \x7d from \x27@playwright/test\x27;",
   "",
   "test(\x27replay-r1\x27, async (\x7b page \x7d) => \x7b",
   "  // Original session duration: 0ms",
   "  // URL: https://example.com",
   "",
   "  await page.goto(\x27https://example.com\x27);",
   "",
   "  await page.waitForTimeout(100);",
   "",
   "  // Take final screenshot for comparison",
   "  await page.screenshot(\x7b path: \x27screenshots/replay-r1.png\x27 \x7d);",
   "\x7d);"]

/-- The ranking key as a function of the `prioritize_errors` flag:
(error count, duration) when prioritizing errors, duration alone (a pair
with constant first component) otherwise. -/
def selKey (prioritize_errors : Bool) (s : ReplaySession) : Nat × Int :=
  if prioritize_errors then errKey s else (0, s.duration)

/-- Descending-order relation on sessions along the ranking key. -/
def selGe (prioritize_errors : Bool) (s t : ReplaySession) : Prop :=
  pairGe (selKey prioritize_errors s) (selKey prioritize_errors t)

/-- Following the claim's words: the non-null selector values across all
actions of all sessions. -/
def nonNullSelectors (sessions : List ReplaySession) : List String :=
  sessions.flatMap (fun s => s.actions.filterMap (fun a => a.selector))

/-- A session whose sole action carries the empty — non-null — selector. -/
def emptySelectorSession : ReplaySession :=
  ⟨"e1", 0, "X", [⟨0, "click", some "", none, none, none⟩], [], [],
    emptyMeta⟩

/-- The three sessions of the claim's concrete coverage example: urls
`X`, `X`, `Y` with selector lists `[a]`, `[a, b]`, `[]`. -/
def mkCovSession (id url : String) (sels : List String) : ReplaySession :=
  ⟨id, 0, url,
   sels.map (fun sel => ⟨0, "click", some sel, none, none, none⟩),
   [], [], emptyMeta⟩

/-! ## Theorems -/

/-- Inserting an element all ties of which (w.r.t. a Bool class predicate)
it may precede puts it at the front of the class filter. -/
theorem filter_orderedInsert_pos {α : Type} {r : α → α → Prop} [DecidableRel r]
    {p : α → Bool} {a : α} (hpa : p a = true)
    (h : ∀ b, p b = true → r a b) :
    ∀ l : List α, (l.orderedInsert r a).filter p = a :: l.filter p
  | [] => by simp [List.orderedInsert, hpa]
  | b :: l => by
    by_cases hr : r a b
    · simp [List.orderedInsert, if_pos hr, List.filter_cons, hpa]
    · have hpb : p b = false := by
        cases hb : p b with
        | true => exact absurd (h b hb) hr
        | false => rfl
      simp [List.orderedInsert, if_neg hr, List.filter_cons, hpb,
        filter_orderedInsert_pos hpa h l]

/-- Inserting an element outside the class does not change the class
filter. -/
theorem filter_orderedInsert_neg {α : Type} {r : α → α → Prop} [DecidableRel r]
    {p : α → Bool} {a : α} (hpa : p a = false) :
    ∀ l : List α, (l.orderedInsert r a).filter p = l.filter p
  | [] => by simp [List.orderedInsert, hpa]
  | b :: l => by
    by_cases hr : r a b
    · simp [List.orderedInsert, if_pos hr, List.filter_cons, hpa]
    · simp [List.orderedInsert, if_neg hr, List.filter_cons,
        filter_orderedInsert_neg hpa l]

/-- Stability of `insertionSort` along a total preorder: the filter of any
tie-class (a class predicate whose members are pairwise `r`-related both
ways) is untouched by sorting. -/
theorem filter_insertionSort_of_ties {α : Type} {r : α → α → Prop}
    [DecidableRel r] {p : α → Bool}
    (h : ∀ a b, p a = true → p b = true → r a b) :
    ∀ l : List α, (l.insertionSort r).filter p = l.filter p
  | [] => rfl
  | a :: l => by
    simp only [List.insertionSort]
    cases hpa : p a with
    | true =>
      rw [filter_orderedInsert_pos hpa (fun b hb => h a b hpa hb),
        filter_insertionSort_of_ties h l, List.filter_cons_of_pos hpa]
    | false =>
      rw [filter_orderedInsert_neg hpa, filter_insertionSort_of_ties h l]
      simp [List.filter_cons, hpa]

/-- Two character lists with different `n`-prefixes stay different after
appending arbitrary tails. -/
theorem append_ne_of_take_ne (n : Nat) {p q a b : List Char}
    (h1 : n ≤ p.length) (h2 : n ≤ q.length)
    (h3 : p.take n ≠ q.take n) : p ++ a ≠ q ++ b := by
  intro h
  exact h3 (by
    rw [← List.take_append_of_le_length h1, h, List.take_append_of_le_length h2])

/-- A character list extending `p` differs from any list whose `n`-prefix
differs from `p`'s. -/
theorem append_ne_of_take_ne_concrete (n : Nat) {p a q : List Char}
    (h1 : n ≤ p.length) (h3 : p.take n ≠ q.take n) : p ++ a ≠ q :=
  fun h => h3 (by rw [← List.take_append_of_le_length h1, h])

/-- On a list of mappings the tag loop returns the value of the first
entry whose key is `"url"`, else the fixed fallback. -/
theorem urlTagLoop_eq_find :
    ∀ ts : List JVal, (∀ t ∈ ts, t.isObj = true) →
      urlTagLoop ts = .ok
        (match ts.find? tagKeyIsUrl with
         | some t => tagValue t
         | none => .str "https://example.com")
  | [], _ => rfl
  | t :: rest, h => by
    have ht := h t (by simp)
    cases t with
    | obj f =>
      by_cases hk : jgetD f "key" .null = .str "url"
      · have hfind : (JVal.obj f :: rest).find? tagKeyIsUrl = some (JVal.obj f) := by
          simp [List.find?, tagKeyIsUrl, hk]
        rw [hfind]
        show (if jgetD f "key" JVal.null = JVal.str "url"
            then Except.ok (jgetD f "value" (JVal.str ""))
            else urlTagLoop rest) = Except.ok (tagValue (JVal.obj f))
        rw [if_pos hk]
        rfl
      · have hfind : (JVal.obj f :: rest).find? tagKeyIsUrl = rest.find? tagKeyIsUrl := by
          simp [List.find?, tagKeyIsUrl, hk]
        rw [hfind]
        show (if jgetD f "key" JVal.null = JVal.str "url"
            then Except.ok (jgetD f "value" (JVal.str ""))
            else urlTagLoop rest) = _
        rw [if_neg hk]
        exact urlTagLoop_eq_find rest (fun x hx => h x (by simp [hx]))
    | null => simp [JVal.isObj] at ht
    | bool b => simp [JVal.isObj] at ht
    | num n => simp [JVal.isObj] at ht
    | str s => simp [JVal.isObj] at ht
    | arr l => simp [JVal.isObj] at ht

/-- On a list of mappings the tag loop cannot raise. -/
theorem urlTagLoop_isOk (ts : List JVal) (h : ∀ t ∈ ts, t.isObj = true) :
    ∃ v, urlTagLoop ts = .ok v :=
  ⟨_, urlTagLoop_eq_find ts h⟩

/-- The helper `_extract_url` cannot raise on a record whose `urls` (when present) is
a list and whose `tags` (when present) is a list of mappings. -/
theorem extract_url_isOk (r : RawRecord)
    (h1 : ∀ v, jget r "urls" = some v → v.isArr = true)
    (h2 : ∀ v, jget r "tags" = some v → v.isObjArr = true) :
    ∃ u, extract_url r = .ok u := by
  have rest : ∃ u, extract_url_rest r = .ok u := by
    unfold extract_url_rest
    cases hu : jget r "url" with
    | some u => exact ⟨u, rfl⟩
    | none =>
      cases htg : jget r "tags" with
      | some t =>
        have := h2 t htg
        cases t with
        | arr ts =>
          exact urlTagLoop_isOk ts (by
            intro x hx
            exact List.all_eq_true.mp (by simpa [JVal.isObjArr] using this) x hx)
        | null => simp [JVal.isObjArr] at this
        | bool b => simp [JVal.isObjArr] at this
        | num n => simp [JVal.isObjArr] at this
        | str s => simp [JVal.isObjArr] at this
        | obj f => simp [JVal.isObjArr] at this
      | none => exact ⟨_, rfl⟩
  unfold extract_url
  cases hus : jget r "urls" with
  | some v =>
    have := h1 v hus
    cases v with
    | arr l =>
      cases l with
      | nil => exact rest
      | cons x xs => exact ⟨x, rfl⟩
    | null => simp [JVal.isArr] at this
    | bool b => simp [JVal.isArr] at this
    | num n => simp [JVal.isArr] at this
    | str s => simp [JVal.isArr] at this
    | obj f => simp [JVal.isArr] at this
  | none => exact rest

/-- The helper `_extract_errors` cannot raise on a record whose `error_ids` (when
present, and when `errors` is absent) is a list. -/
theorem extract_errors_isOk (r : RawRecord)
    (h : ∀ v, jget r "error_ids" = some v → v.isArr = true) :
    ∃ e, extract_errors r = .ok e := by
  unfold extract_errors
  cases he : jget r "errors" with
  | some e => exact ⟨e, rfl⟩
  | none =>
    cases hi : jget r "error_ids" with
    | some ids =>
      have := h ids hi
      cases ids with
      | arr l => exact ⟨_, rfl⟩
      | null => simp [JVal.isArr] at this
      | bool b => simp [JVal.isArr] at this
      | num n => simp [JVal.isArr] at this
      | str s => simp [JVal.isArr] at this
      | obj f => simp [JVal.isArr] at this
    | none => exact ⟨_, rfl⟩

/-- C6: normalizing an empty mapping yields a session with
`replay_id = "unknown"`, `duration = 0`, `url = "https://example.com"`,
and empty `actions`, `network_requests` and `errors`. -/
theorem analyze_replay_empty_defaults :
    analyze_replay [] = .ok emptyNormalized ∧
    emptyNormalized.replay_id = .str "unknown" ∧
    emptyNormalized.duration = .num 0 ∧
    emptyNormalized.url = .str "https://example.com" ∧
    emptyNormalized.actions = [] ∧
    emptyNormalized.network_requests = [] ∧
    emptyNormalized.errors = .arr [] :=
  ⟨rfl, rfl, rfl, rfl, rfl, rfl, rfl⟩

/-- C5: the URL fallback chain, first match wins — first element of a
non-empty `urls` list; else a scalar `url` field when the key is present;
else the value of the first `tags` entry whose key equals `"url"`; else
the fixed placeholder.  The last two conjuncts are the claim's concrete
instances: `urls` beats `url`, and `url` beats `tags`. -/
theorem extract_url_fallback_chain :
    (∀ (r : RawRecord) (v : JVal) (l : List JVal),
        jget r "urls" = some (.arr (v :: l)) → extract_url r = .ok v) ∧
    (∀ (r : RawRecord) (u : JVal),
        (jget r "urls" = none ∨ jget r "urls" = some (.arr [])) →
        jget r "url" = some u → extract_url r = .ok u) ∧
    (∀ (r : RawRecord) (ts : List JVal),
        (jget r "urls" = none ∨ jget r "urls" = some (.arr [])) →
        jget r "url" = none →
        jget r "tags" = some (.arr ts) →
        (∀ t ∈ ts, t.isObj = true) →
        extract_url r = .ok
          (match ts.find? tagKeyIsUrl with
           | some t => tagValue t
           | none => .str "https://example.com")) ∧
    (∀ r : RawRecord,
        (jget r "urls" = none ∨ jget r "urls" = some (.arr [])) →
        jget r "url" = none →
        jget r "tags" = none →
        extract_url r = .ok (.str "https://example.com")) ∧
    urlOf (analyze_replay [("urls", .arr [.str "A"]), ("url", .str "B")])
      = some (.str "A") ∧
    urlOf (analyze_replay
        [("url", .str "B"),
         ("tags", .arr [.obj [("key", .str "url"), ("value", .str "C")]])])
      = some (.str "B") := by
  refine ⟨?_, ?_, ?_, ?_, rfl, rfl⟩
  · intro r v l h
    unfold extract_url
    rw [h]
    rfl
  · intro r u hurls hurl
    have hrest : extract_url_rest r = .ok u := by
      unfold extract_url_rest
      rw [hurl]
    unfold extract_url
    rcases hurls with h | h <;> rw [h] <;> exact hrest
  · intro r ts hurls hurl htags hobj
    have hrest : extract_url_rest r = .ok
        (match ts.find? tagKeyIsUrl with
         | some t => tagValue t
         | none => .str "https://example.com") := by
      unfold extract_url_rest
      rw [hurl, htags]
      exact urlTagLoop_eq_find ts hobj
    unfold extract_url
    rcases hurls with h | h <;> rw [h] <;> exact hrest
  · intro r hurls hurl htags
    have hrest : extract_url_rest r = .ok (.str "https://example.com") := by
      unfold extract_url_rest
      rw [hurl, htags]
    unfold extract_url
    rcases hurls with h | h <;> rw [h] <;> exact hrest

/-- Witness for the fallback-chain theorem at a concrete record. -/
theorem extract_url_fallback_chain_w :
    extract_url [("urls", JVal.arr [JVal.str "Z"])] = .ok (.str "Z") :=
  extract_url_fallback_chain.1 [("urls", JVal.arr [JVal.str "Z"])]
    (JVal.str "Z") [] rfl

/-- C7 counterexample: normalization is not total over raw records — a
wrong-typed `urls` field (a truthy number, which Python cannot subscript)
makes `analyze_replay` raise a TypeError instead of returning a session. -/
theorem analyze_replay_wrong_typed_urls_raises :
    analyze_replay [("urls", JVal.num 5)] = .error .typeError := rfl

/-- C7 (amended): normalization raises no error and returns a session for
every raw record whose traversed fields, when present, have their
documented shapes (`urls` a list, `tags` a list of mappings, `error_ids` a
list); in particular for every record with missing fields. -/
theorem analyze_replay_total_on_wellShaped (r : RawRecord)
    (h : wellShaped r = true) : ∃ s, analyze_replay r = .ok s := by
  simp only [wellShaped, Bool.and_eq_true] at h
  obtain ⟨⟨ha, hb⟩, hc⟩ := h
  have h1 : ∀ v, jget r "urls" = some v → v.isArr = true := by
    intro v hv
    rw [hv] at ha
    exact ha
  have h2 : ∀ v, jget r "tags" = some v → v.isObjArr = true := by
    intro v hv
    rw [hv] at hb
    exact hb
  have h3 : ∀ v, jget r "error_ids" = some v → v.isArr = true := by
    intro v hv
    rw [hv] at hc
    exact hc
  obtain ⟨u, hu⟩ := extract_url_isOk r h1 h2
  obtain ⟨e, he⟩ := extract_errors_isOk r h3
  cases hres : analyze_replay r with
  | ok s => exact ⟨s, rfl⟩
  | error err =>
    exfalso
    unfold analyze_replay at hres
    rw [hu, he] at hres
    exact Except.noConfusion hres

/-- Witness: a record carrying only a scalar `url` is well-shaped and
normalizes without error. -/
theorem analyze_replay_total_on_wellShaped_w :
    ∃ s, analyze_replay [("url", JVal.str "B")] = .ok s :=
  analyze_replay_total_on_wellShaped [("url", JVal.str "B")] (by decide)

/-- C8: action and network-request extraction are no-ops producing the
empty sequence, so every successfully normalized session has empty
`actions` and `network_requests`. -/
theorem extraction_no_op :
    (∀ r : RawRecord,
        extract_actions r = [] ∧ extract_network_requests r = []) ∧
    (∀ (r : RawRecord) (s : DynReplaySession), analyze_replay r = .ok s →
        s.actions = [] ∧ s.network_requests = []) := by
  refine ⟨fun r => ⟨rfl, rfl⟩, ?_⟩
  intro r s h
  unfold analyze_replay at h
  cases hu : extract_url r with
  | error e =>
    rw [hu] at h
    exact Except.noConfusion h
  | ok u =>
    rw [hu] at h
    cases he : extract_errors r with
    | error e =>
      rw [he] at h
      exact Except.noConfusion h
    | ok e =>
      rw [he] at h
      cases h
      exact ⟨rfl, rfl⟩

/-- Witness: the empty record's session has empty actions and network
requests. -/
theorem extraction_no_op_w :
    emptyNormalized.actions = [] ∧ emptyNormalized.network_requests = [] :=
  extraction_no_op.2 [] emptyNormalized rfl

/-- C10: a record with no `urls`/`url` whose `tags` hold an entry with key
`"url"` but no value normalizes to the empty-string url (the
`tag.get('value', '')` default), not to the placeholder. -/
theorem extract_url_missing_tag_value :
    urlOf (analyze_replay
        [("tags", JVal.arr [JVal.obj [("key", JVal.str "url")]])])
      = some (.str "") ∧
    JVal.str "" ≠ JVal.str "https://example.com" :=
  ⟨rfl, by decide⟩

/-- Click statements differ from fill statements (the prefixes diverge at
the method name). -/
theorem clickLine_ne_fillLine (s s2 v : String) : clickLine s ≠ fillLine s2 v := by
  intro h
  have hd := congrArg String.data h
  simp only [clickLine, fillLine, String.data_append, List.append_assoc] at hd
  exact append_ne_of_take_ne 14 (by decide) (by decide) (by decide) hd

/-- Click statements differ from goto statements. -/
theorem clickLine_ne_gotoLine (s t : String) : clickLine s ≠ gotoLine t := by
  intro h
  have hd := congrArg String.data h
  simp only [clickLine, gotoLine, String.data_append, List.append_assoc] at hd
  exact append_ne_of_take_ne 14 (by decide) (by decide) (by decide) hd

/-- Fill statements differ from goto statements. -/
theorem fillLine_ne_gotoLine (s v t : String) : fillLine s v ≠ gotoLine t := by
  intro h
  have hd := congrArg String.data h
  simp only [fillLine, gotoLine, String.data_append, List.append_assoc] at hd
  exact append_ne_of_take_ne 14 (by decide) (by decide) (by decide) hd

/-- Click statements are never the wait line. -/
theorem clickLine_ne_waitLine (s : String) : clickLine s ≠ waitLine := by
  intro h
  have hd := congrArg String.data h
  simp only [clickLine, waitLine, String.data_append, List.append_assoc] at hd
  exact append_ne_of_take_ne_concrete 14 (by decide) (by decide) hd

/-- Fill statements are never the wait line. -/
theorem fillLine_ne_waitLine (s v : String) : fillLine s v ≠ waitLine := by
  intro h
  have hd := congrArg String.data h
  simp only [fillLine, waitLine, String.data_append, List.append_assoc] at hd
  exact append_ne_of_take_ne_concrete 14 (by decide) (by decide) hd

/-- Goto statements are never the wait line. -/
theorem gotoLine_ne_waitLine (t : String) : gotoLine t ≠ waitLine := by
  intro h
  have hd := congrArg String.data h
  simp only [gotoLine, waitLine, String.data_append, List.append_assoc] at hd
  exact append_ne_of_take_ne_concrete 14 (by decide) (by decide) hd

/-- Whatever statement an action emits, it is not the wait line. -/
theorem actionStmt_ne_waitLine (a : UserAction) (l : String)
    (h : actionStmt a = some l) : l ≠ waitLine := by
  unfold actionStmt at h
  split_ifs at h with h1 h2 h3
  · cases h
    exact clickLine_ne_waitLine _
  · cases h
    exact fillLine_ne_waitLine _ _
  · cases h
    exact gotoLine_ne_waitLine _

/-- A truthy optional string is not `none`. -/
theorem optStrTruthy_ne_none {o : Option String} (h : optStrTruthy o = true) :
    o ≠ none := by
  cases o with
  | none => exact absurd h (by simp [optStrTruthy])
  | some s => exact Option.noConfusion

/-- A click statement differs from every string whose 14-character prefix
is not `"  await page.c"`. -/
theorem clickLine_ne_lit (s l : String)
    (h : (String.data "  await page.click(\x27").take 14 ≠ l.data.take 14) :
    clickLine s ≠ l := by
  intro he
  have hd := congrArg String.data he
  simp only [clickLine, String.data_append, List.append_assoc] at hd
  exact append_ne_of_take_ne_concrete 14 (by decide) h hd

/-- Split a true Boolean conjunction. -/
theorem andE {a b : Bool} (h : (a && b) = true) : a = true ∧ b = true :=
  (Bool.and_eq_true a b) ▸ h

/-- C2: per-action emission of `to_test_script` — a click statement only
for `click` actions with a selector, a fill statement only for `input`
actions with selector and value, a goto statement only for `navigation`
actions with a target, no statement for any other shape, every emitted
statement being one of those three; exactly one wait line per action; and
the claim's concrete example (sole action a click with null selector):
the rendered lines carry the navigation and screenshot statements, no
click statement, and exactly one wait line. -/
theorem to_test_script_emission :
    (∀ (a : UserAction) (sel : String), actionStmt a = some (clickLine sel) →
        a.action_type = "click" ∧ a.selector ≠ none) ∧
    (∀ (a : UserAction) (sel v : String),
        actionStmt a = some (fillLine sel v) →
        a.action_type = "input" ∧ a.selector ≠ none ∧ a.value ≠ none) ∧
    (∀ (a : UserAction) (t : String), actionStmt a = some (gotoLine t) →
        a.action_type = "navigation" ∧ a.target ≠ none) ∧
    (∀ a : UserAction,
        ¬(a.action_type = "click" ∧ a.selector ≠ none) →
        ¬(a.action_type = "input" ∧ a.selector ≠ none ∧ a.value ≠ none) →
        ¬(a.action_type = "navigation" ∧ a.target ≠ none) →
        actionStmt a = none) ∧
    (∀ a : UserAction, actionStmt a = none ∨
        (∃ sel, actionStmt a = some (clickLine sel)) ∨
        (∃ sel v, actionStmt a = some (fillLine sel v)) ∨
        (∃ t, actionStmt a = some (gotoLine t))) ∧
    (∀ a : UserAction, (actionLines a).count waitLine = 1) ∧
    scriptLines nullClickSession = nullClickScriptLines ∧
    gotoLine nullClickSession.url ∈ scriptLines nullClickSession ∧
    "  await page.screenshot(\x7b path: \x27screenshots/replay-r1.png\x27 \x7d);"
      ∈ scriptLines nullClickSession ∧
    (∀ sel, clickLine sel ∉ scriptLines nullClickSession) ∧
    (scriptLines nullClickSession).count waitLine = 1 ∧
    nullClickSession.to_test_script
      = String.intercalate "\n" (scriptLines nullClickSession) := by
  refine ⟨?_, ?_, ?_, ?_, ?_, ?_, rfl, by decide, by decide, ?_, by decide, rfl⟩
  · intro a sel h
    unfold actionStmt at h
    split_ifs at h with h1 h2 h3
    · obtain ⟨ht, hs⟩ := andE h1
      exact ⟨eq_of_beq ht, optStrTruthy_ne_none hs⟩
    · exact absurd (Option.some.inj h).symm (clickLine_ne_fillLine _ _ _)
    · exact absurd (Option.some.inj h).symm (clickLine_ne_gotoLine _ _)
  · intro a sel v h
    unfold actionStmt at h
    split_ifs at h with h1 h2 h3
    · exact absurd (Option.some.inj h) (clickLine_ne_fillLine _ _ _)
    · obtain ⟨h12, hv⟩ := andE h2
      obtain ⟨ht, hs⟩ := andE h12
      exact ⟨eq_of_beq ht, optStrTruthy_ne_none hs, optStrTruthy_ne_none hv⟩
    · exact absurd (Option.some.inj h).symm (fillLine_ne_gotoLine _ _ _)
  · intro a t h
    unfold actionStmt at h
    split_ifs at h with h1 h2 h3
    · exact absurd (Option.some.inj h) (clickLine_ne_gotoLine _ _)
    · exact absurd (Option.some.inj h) (fillLine_ne_gotoLine _ _ _)
    · obtain ⟨ht, htg⟩ := andE h3
      exact ⟨eq_of_beq ht, optStrTruthy_ne_none htg⟩
  · intro a hnc hni hnn
    unfold actionStmt
    split_ifs with h1 h2 h3
    · obtain ⟨ht, hs⟩ := andE h1
      exact absurd ⟨eq_of_beq ht, optStrTruthy_ne_none hs⟩ hnc
    · obtain ⟨h12, hv⟩ := andE h2
      obtain ⟨ht, hs⟩ := andE h12
      exact absurd ⟨eq_of_beq ht, optStrTruthy_ne_none hs,
        optStrTruthy_ne_none hv⟩ hni
    · obtain ⟨ht, htg⟩ := andE h3
      exact absurd ⟨eq_of_beq ht, optStrTruthy_ne_none htg⟩ hnn
    · rfl
  · intro a
    unfold actionStmt
    split_ifs with h1 h2 h3
    · exact Or.inr (Or.inl ⟨_, rfl⟩)
    · exact Or.inr (Or.inr (Or.inl ⟨_, _, rfl⟩))
    · exact Or.inr (Or.inr (Or.inr ⟨_, rfl⟩))
    · exact Or.inl rfl
  · intro a
    cases hstmt : actionStmt a with
    | none =>
      simp only [actionLines, hstmt, Option.toList_none, List.nil_append]
      rfl
    | some l =>
      have hne : (l == waitLine) = false := by
        cases hb : l == waitLine
        · rfl
        · exact absurd (eq_of_beq hb) (actionStmt_ne_waitLine a l hstmt)
      simp only [actionLines, hstmt, Option.toList_some, List.cons_append,
        List.nil_append, List.count_cons, hne]
      rfl
  · intro sel hmem
    rw [show scriptLines nullClickSession = nullClickScriptLines from rfl]
      at hmem
    simp only [nullClickScriptLines, List.mem_cons, List.not_mem_nil,
      or_false] at hmem
    rcases hmem with h | h | h | h | h | h | h | h | h | h | h | h | h
    all_goals exact clickLine_ne_lit sel _ (by decide) h

/-- Witness: a click action with selector `#btn` emits a click statement,
and its shape satisfies the claimed conditions. -/
theorem to_test_script_emission_w :
    (⟨0, "click", some "#btn", none, none, none⟩ : UserAction).action_type
        = "click" ∧
    (⟨0, "click", some "#btn", none, none, none⟩ : UserAction).selector
        ≠ none :=
  to_test_script_emission.1 ⟨0, "click", some "#btn", none, none, none⟩
    "#btn" rfl

/-- C3: the Script Synthesizer is deterministic and side-effect-free —
equal sessions render to byte-identical strings.  (It is embedded as a
pure function of the session value alone, matching the source, which
reads `self` and locals only.) -/
theorem to_test_script_deterministic :
    ∀ s t : ReplaySession, s = t →
      ReplaySession.to_test_script s = ReplaySession.to_test_script t :=
  fun _ _ h => congrArg ReplaySession.to_test_script h

/-- Witness: rendering the example session twice gives equal strings. -/
theorem to_test_script_deterministic_w :
    ReplaySession.to_test_script nullClickSession
      = ReplaySession.to_test_script nullClickSession :=
  to_test_script_deterministic nullClickSession nullClickSession rfl

/-- C1: the Selector keeps exactly the sessions with
`duration >= min_duration`, ranks them descending by the key (error count
then duration when `prioritize_errors`, duration alone otherwise) with
equal-key sessions in their filtered relative order (stability), and
truncates to the first `max_sessions`. -/
theorem select_ranks_filters_truncates
    (sessions : List ReplaySession) (max_sessions : Nat)
    (prioritize_errors : Bool) (min_duration : Int) :
    ∃ ranked : List ReplaySession,
      select_sessions_for_testing sessions max_sessions prioritize_errors
          min_duration = ranked.take max_sessions ∧
      ranked.Perm
        (sessions.filter (fun s => decide (min_duration ≤ s.duration))) ∧
      ranked.Pairwise (selGe prioritize_errors) ∧
      (∀ k : Nat × Int,
        ranked.filter (fun s => decide (selKey prioritize_errors s = k))
          = (sessions.filter
              (fun s => decide (min_duration ≤ s.duration))).filter
                (fun s => decide (selKey prioritize_errors s = k))) := by
  cases prioritize_errors with
  | true =>
    refine ⟨(sessions.filter
        (fun x => decide (min_duration ≤ x.duration))).insertionSort errGe,
      ?_, List.perm_insertionSort errGe _, ?_, ?_⟩
    · rfl
    · exact List.sorted_insertionSort errGe _
    · intro k
      exact filter_insertionSort_of_ties (fun a b ha hb => by
        have ha' : errKey a = k := of_decide_eq_true ha
        have hb' : errKey b = k := of_decide_eq_true hb
        unfold errGe
        rw [ha', hb']
        exact Or.inr ⟨rfl, le_refl _⟩) _
  | false =>
    refine ⟨(sessions.filter
        (fun x => decide (min_duration ≤ x.duration))).insertionSort durGe,
      ?_, List.perm_insertionSort durGe _, ?_, ?_⟩
    · rfl
    · exact (List.sorted_insertionSort durGe _).imp
        (fun h => Or.inr ⟨rfl, h⟩)
    · intro k
      exact filter_insertionSort_of_ties (fun a b ha hb => by
        have ha' : ((0 : Nat), a.duration) = k := of_decide_eq_true ha
        have hb' : ((0 : Nat), b.duration) = k := of_decide_eq_true hb
        have : a.duration = b.duration := by
          have := ha'.trans hb'.symm
          exact (Prod.mk.injEq _ _ _ _ ▸ this).2
        exact le_of_eq this.symm) _

/-- C9: the Selector leaves the accumulated session collection unchanged
(its post-state equals its pre-state) and the sessions it returns are the
very members of that collection, copied by reference. -/
theorem select_preserves_state (a : ReplayAnalyzer) (max_sessions : Nat)
    (prioritize_errors : Bool) (min_duration : Int) :
    (a.select_st max_sessions prioritize_errors min_duration).2 = a ∧
    (a.select_st max_sessions prioritize_errors min_duration).1
      ⊆ a.sessions := by
  refine ⟨rfl, ?_⟩
  intro s hs
  cases prioritize_errors with
  | true =>
    have hs' := List.take_subset _ _ hs
    exact List.mem_of_mem_filter ((List.mem_insertionSort errGe).mp hs')
  | false =>
    have hs' := List.take_subset _ _ hs
    exact List.mem_of_mem_filter ((List.mem_insertionSort durGe).mp hs')

/-- Witness: on a one-session analyzer the post-state is the pre-state. -/
theorem select_preserves_state_w :
    ((ReplayAnalyzer.mk [nullClickSession]).select_st 10 true 1000).2
      = ReplayAnalyzer.mk [nullClickSession] :=
  (select_preserves_state (ReplayAnalyzer.mk [nullClickSession])
    10 true 1000).1

/-- C4 counterexample: `unique_selectors` is not the cardinality of the
set of non-null selector values — the aggregator's truthiness test also
drops the empty string, a non-null selector value. -/
theorem analyze_coverage_empty_selector_cex :
    (analyze_coverage [emptySelectorSession]).unique_selectors
      ≠ (nonNullSelectors [emptySelectorSession]).toFinset.card := by
  decide

/-- Truthy-selector extraction is the non-null extraction filtered by
non-emptiness. -/
theorem selectors_filter (l : List UserAction) :
    l.filterMap (fun a =>
      match a.selector with
      | some v => if v != "" then some v else none
      | none => none)
    = (l.filterMap (fun a => a.selector)).filter (fun v => v != "") := by
  induction l with
  | nil => rfl
  | cons a l ih =>
    cases ha : a.selector with
    | none =>
      simp only [List.filterMap_cons, ha]
      exact ih
    | some v =>
      by_cases hveq : v = ""
      · subst hveq
        simp only [List.filterMap_cons, ha,
          if_neg (by decide : ¬ (("" != "") = true))]
        rw [List.filter_cons, if_neg (by decide : ¬ (("" != "") = true))]
        exact ih
      · have hvb : (v != "") = true := by simp [hveq]
        simp only [List.filterMap_cons, ha, if_pos hvb]
        rw [List.filter_cons, if_pos hvb, ih]

/-- Collection-wide version of `selectors_filter`. -/
theorem flatMap_selectors (sessions : List ReplaySession) :
    sessions.flatMap sessionSelectors
      = (nonNullSelectors sessions).filter (fun v => v != "") := by
  induction sessions with
  | nil => rfl
  | cons s l ih =>
    simp only [nonNullSelectors, List.flatMap_cons, List.filter_append] at *
    rw [ih]
    unfold sessionSelectors
    rw [selectors_filter]

/-- C4 (amended): the Coverage Aggregator's counts — session count, set
cardinality of urls, set cardinality of the non-null **and non-empty**
(truthy) selector values, action/error sums, and exact occurrence counts
in both distributions; with the claim's concrete three-session example. -/
theorem analyze_coverage_counts (sessions : List ReplaySession) :
    (analyze_coverage sessions).total_sessions = sessions.length ∧
    (analyze_coverage sessions).unique_urls
      = (sessions.map (fun s => s.url)).toFinset.card ∧
    (analyze_coverage sessions).unique_selectors
      = ((nonNullSelectors sessions).filter
          (fun v => v != "")).toFinset.card ∧
    (analyze_coverage sessions).total_actions
      = (sessions.map (fun s => s.actions.length)).sum ∧
    (analyze_coverage sessions).total_errors
      = (sessions.map (fun s => s.errors.length)).sum ∧
    (∀ u, (analyze_coverage sessions).url_distribution u
      = (sessions.map (fun s => s.url)).count u) ∧
    (∀ b, (analyze_coverage sessions).browser_distribution b
      = (sessions.map (fun s => jget s.metadata.browser "name")).count b) ∧
    (analyze_coverage
        [mkCovSession "c1" "X" ["a"], mkCovSession "c2" "X" ["a", "b"],
         mkCovSession "c3" "Y" []]).unique_urls = 2 ∧
    (analyze_coverage
        [mkCovSession "c1" "X" ["a"], mkCovSession "c2" "X" ["a", "b"],
         mkCovSession "c3" "Y" []]).unique_selectors = 2 ∧
    (analyze_coverage
        [mkCovSession "c1" "X" ["a"], mkCovSession "c2" "X" ["a", "b"],
         mkCovSession "c3" "Y" []]).total_actions = 3 := by
  refine ⟨rfl, (List.card_toFinset _).symm, ?_, rfl, rfl, fun u => rfl,
    fun b => rfl, by decide, by decide, by decide⟩
  calc (analyze_coverage sessions).unique_selectors
      = (sessions.flatMap sessionSelectors).dedup.length := rfl
    _ = ((nonNullSelectors sessions).filter
          (fun v => v != "")).dedup.length := by rw [flatMap_selectors]
    _ = ((nonNullSelectors sessions).filter
          (fun v => v != "")).toFinset.card := (List.card_toFinset _).symm

